import Mathlib

/-!
# Verification of the econ-grads extraction/normalization pipeline

Shallow embedding of the core of the `econ_grads` repository
(`src/normalize.py`, `src/scraper.py`, `src/pdf_parser.py`,
`src/parsers/base.py`, `src/enricher.py`) together with theorems settling
the spec claims C1-C10.

Modelling conventions:
* Python strings are modelled as Lean `String` (a list of code points);
  `str.lower()` is modelled with ASCII case-mapping (`Char.toLower`),
  `str.strip()` drops leading/trailing whitespace characters, and
  `needle in hay` is the list-infix relation on the code points.  All
  string data handled by the claims is ASCII, where these agree with
  Python exactly.
* An HTML table is modelled as the list of its rows, each row the list
  of its cells' text (what BeautifulSoup `get_text` returns per cell);
  a row's `get_text()` is the concatenation of its cells' text.
* Fallible Python code (code that can raise) is modelled in `Except`;
  external effects (HTTP fetch, Selenium, the Sonar lookup) are passed
  in as explicit oracle functions.
-/

namespace EconGrads

/-! ## Python string primitives -/

/-- Python `str.lower()` (ASCII case mapping on each code point). -/
def pyLower (s : String) : String := ⟨s.data.map Char.toLower⟩

/-- Whitespace test used by Python `str.strip()`. -/
def pyWs (c : Char) : Bool := c.isWhitespace

/-- Strip on lists of code points: drop leading, then trailing whitespace. -/
def pyStripL (l : List Char) : List Char := (l.dropWhile pyWs).rdropWhile pyWs

/-- Python `str.strip()`. -/
def pyStrip (s : String) : String := ⟨pyStripL s.data⟩

/-- Python `needle in hay` for strings: contiguous-substring test. -/
def pyIn (needle hay : String) : Bool := decide (needle.data <:+: hay.data)

/-- Python `s.startswith(pre)`. -/
def pyStartsWith (s pre : String) : Bool := decide (pre.data <+: s.data)

/-! ## `src/normalize.py` -/

/-- Table `COMPANY_ALIASES` from `src/normalize.py` (insertion order preserved:
Python dicts iterate in insertion order). -/
def COMPANY_ALIASES : List (String × List String) :=
  [ ("Meta", ["facebook", "meta", "meta platforms", "fb", "facebook inc"]),
    ("X", ["twitter", "x corp", "x.com"]),
    ("Block", ["square", "block", "block inc", "square inc", "cash app"]),
    ("Amazon", ["amazon", "amazon pharmacy", "economist, amazon", "amazon.com", "aws"]),
    ("Google", ["google", "alphabet", "youtube", "waymo", "verily"]),
    ("Microsoft", ["microsoft", "microsoft post-doc"]),
    ("Uber", ["uber", "uber eats", "uber technologies", "uber freight"]),
    ("Airbnb", ["airbnb", "data scientist, airbnb"]),
    ("Instacart", ["instacart economist", "instacart"]),
    ("Two Sigma", ["two sigma", "twosigma", "2sigma"]),
    ("D.E. Shaw", ["de shaw", "d.e. shaw", "deshaw", "d. e. shaw"]),
    ("Jane Street", ["jane street", "janestreet"]),
    ("Citadel", ["citadel", "citadel securities", "citadel llc"]),
    ("OpenAI", ["openai", "open ai"]),
    ("DeepMind", ["deepmind", "deep mind"]),
    ("Scale AI", ["scale ai", "scale.ai", "scaleai"]),
    ("Navan", ["navan", "tripactions"]),
    ("Booking", ["booking", "booking.com", "priceline"]) ]

/-- List `ACADEMIA_KEYWORDS` from `src/normalize.py`. -/
def ACADEMIA_KEYWORDS : List String :=
  [ "university", "college", "professor", "faculty",
    "postdoc", "instructor", "phd", "academic",
    "research fellow", "lecturer", "assistant prof",
    "associate prof", "visiting scholar", "fellow at",
    "institute for", "school of", "department of" ]

/-- The ordered alias scan inside `normalize_company`: the first canonical
name one of whose aliases occurs in `nameLower`. -/
def aliasLookup (nameLower : String) : Option String :=
  COMPANY_ALIASES.findSome? fun ca =>
    if ca.2.any (fun a => pyIn a nameLower) then some ca.1 else none

/-- Function `normalize_company` from `src/normalize.py`, on strings (the
`pd.isna`/falsy guard returns non-string and empty inputs unchanged;
the non-string cases are modelled separately via `PyVal`). -/
def normalize_company (name : String) : String :=
  if name = "" then name
  else
    match aliasLookup (pyStrip (pyLower name)) with
    | some canonical => canonical
    | none => pyStrip name

/-- Function `is_academia` from `src/normalize.py`, on strings. -/
def is_academia (text : String) : Bool :=
  if text = "" then false
  else ACADEMIA_KEYWORDS.any fun kw => pyIn kw (pyLower text)

/-- Function `standardize_current_placement` from `src/normalize.py`, on strings. -/
def standardize_current_placement (currentCompany : String) : String :=
  if currentCompany = "" then currentCompany
  else if is_academia currentCompany then "Academia"
  else normalize_company currentCompany

/-- Function `is_tech_placement` from `src/normalize.py` (placement string plus the
caller-supplied tech-company keyword list). -/
def is_tech_placement (placement : String) (techCompanies : List String) : Bool :=
  if placement = "" then false
  else if is_academia placement then false
  else if pyIn "@" placement || pyIn "phone" (pyLower placement) then false
  else if pyIn "campus map" (pyLower placement)
       || pyIn "connect with us" (pyLower placement) then false
  else techCompanies.any fun company => pyIn company (pyLower placement)

/-! ### Python-value wrappers (`None` / `NaN` / `str`), for the
`normalize.py` interface edge cases (claim C10). -/

/-- A Python value reaching the Normalizer interface: `None`, a float
`NaN` (what pandas puts in empty cells), or a string. -/
inductive PyVal : Type
  | none : PyVal
  | nan : PyVal
  | str (s : String) : PyVal
deriving DecidableEq

/-- Python truthiness of a `PyVal` (`NaN` is truthy; `None` and `""` are
falsy). -/
def PyVal.truthy : PyVal → Bool
  | .none => false
  | .nan => true
  | .str s => s ≠ ""

/-- Predicate `pd.isna` on a `PyVal` (`True` for both `None` and `NaN`). -/
def PyVal.isna : PyVal → Bool
  | .none => true
  | .nan => true
  | .str _ => false

/-- Function `normalize_company` on arbitrary Python values: the
`if not name or pd.isna(name): return name` guard returns `None`, `NaN`
and `""` unchanged, otherwise the string path runs. -/
def normalize_company_py (v : PyVal) : PyVal :=
  if ¬ v.truthy ∨ v.isna then v
  else match v with
    | .str s => .str (normalize_company s)
    | w => w

/-- Function `is_academia` on arbitrary Python values (same guard, returns
`False`). -/
def is_academia_py (v : PyVal) : Bool :=
  if ¬ v.truthy ∨ v.isna then false
  else match v with
    | .str s => is_academia s
    | _ => false

/-- Function `standardize_current_placement` on arbitrary Python values. -/
def standardize_current_placement_py (v : PyVal) : PyVal :=
  if ¬ v.truthy ∨ v.isna then v
  else match v with
    | .str s => .str (standardize_current_placement s)
    | w => w

/-- Function `is_tech_placement` on arbitrary Python values.  Its only guard is
`if not placement: return False`; it then calls `placement.lower()`,
which on a float `NaN` raises `AttributeError` (modelled as
`Except.error`). -/
def is_tech_placement_py (v : PyVal) (techCompanies : List String) :
    Except String Bool :=
  if ¬ v.truthy then .ok false
  else match v with
    | .str s => .ok (is_tech_placement s techCompanies)
    | _ => .error "AttributeError"

/-! ## `src/scraper.py` -/

/-- Set `TECH_COMPANIES` from `src/scraper.py` (a Python `set`; only
membership is ever used, so list order is irrelevant). -/
def SCRAPER_TECH_COMPANIES : List String :=
  [ "google", "meta", "facebook", "amazon", "apple", "microsoft", "netflix",
    "uber", "lyft", "airbnb", "stripe", "doordash", "instacart", "dropbox",
    "slack", "zoom", "spotify", "pinterest", "snap", "snapchat", "twitter", "x corp",
    "tiktok", "bytedance", "reddit", "discord", "nextdoor", "thumbtack", "turo",
    "openai", "anthropic", "deepmind", "cohere", "stability ai", "midjourney",
    "hugging face", "scale ai", "databricks", "perplexity", "xai", "groq",
    "codeium", "cursor", "anysphere", "writer", "elevenlabs", "harvey",
    "cognition", "character ai", "inflection",
    "robinhood", "coinbase", "plaid", "square", "block", "affirm", "chime",
    "sofi", "brex", "ripple", "kraken", "toast", "marqeta", "klarna", "revolut",
    "salesforce", "oracle", "sap", "vmware", "snowflake", "palantir",
    "servicenow", "workday", "splunk", "crowdstrike", "datadog",
    "deel", "remote", "rippling", "gusto", "qualtrics", "amplitude",
    "shopify", "ebay", "wayfair", "etsy", "walmart labs", "flexport", "faire",
    "nvidia", "intel", "amd", "qualcomm", "tesla", "spacex",
    "zillow", "redfin", "opendoor", "compass", "houzz", "corelogic", "realtor.com",
    "booking", "expedia", "tripadvisor", "navan", "tripactions", "hopper", "kayak",
    "linkedin", "indeed", "glassdoor", "yelp", "doximity", "veeva",
    "twilio", "okta", "cloudflare", "mongodb", "elastic",
    "asana", "notion", "figma", "canva", "airtable",
    "grammarly", "duolingo", "coursera", "udemy", "pandora",
    "roblox", "epic games", "unity", "activision", "electronic arts", "adobe" ]

namespace EconPhDScraper

/-- Method `EconPhDScraper.is_tech_placement` from `src/scraper.py`: not
academia, no garbage/contact-info marker, and some `TECH_COMPANIES`
entry occurs in the lowered placement. -/
def is_tech_placement (placement : String) : Bool :=
  if placement = "" then false
  else if EconGrads.is_academia placement then false
  else if pyIn "@" placement || pyIn "phone" (pyLower placement)
       || pyIn "campus map" (pyLower placement) then false
  else if pyIn "connect with us" (pyLower placement)
       || pyIn "econ[at]" (pyLower placement) then false
  else SCRAPER_TECH_COMPANIES.any fun company => pyIn company (pyLower placement)

end EconPhDScraper

/-- Generic left-to-right scan for a four-character regex alternative:
at each position test the next four characters; on a match return the
associated value (`int` of the matched year), otherwise move one
character right.  This is `re.findall(pattern, text)[0]`-style leftmost
matching for the two year regexes of the repository. -/
def scanYear (test : Char → Char → Char → Char → Bool)
    (value : Char → Char → Char → Char → Nat) : List Char → Option Nat
  | c1 :: c2 :: c3 :: c4 :: rest =>
      if test c1 c2 c3 c4 then some (value c1 c2 c3 c4)
      else scanYear test value (c2 :: c3 :: c4 :: rest)
  | _ => none

namespace EconPhDScraper

/-- The character test of the regex `20(2[0-5])`. -/
def test2025 (c1 c2 c3 c4 : Char) : Bool :=
  c1 = '2' ∧ c2 = '0' ∧ c3 = '2' ∧ '0' ≤ c4 ∧ c4 ≤ '5'

/-- Value `int("20" + match)` for a `20(2[0-5])` match: `202x` as a number. -/
def value2025 (_ _ _ c4 : Char) : Nat := 2020 + (c4.toNat - '0'.toNat)

/-- Method `EconPhDScraper.extract_year` from `src/scraper.py`:
`re.findall(r'20(2[0-5])', text)`, first match or `None`. -/
def extract_year (text : String) : Option Nat :=
  if text = "" then none else scanYear test2025 value2025 text.data

end EconPhDScraper

namespace SchoolParser

/-- Method `SchoolParser.extract_year` from `src/parsers/base.py` (identical to
the scraper's: regex `20(2[0-5])`, first match or `None`). -/
def extract_year (text : String) : Option Nat :=
  if text = "" then none
  else scanYear EconPhDScraper.test2025 EconPhDScraper.value2025 text.data

end SchoolParser


/-- The candidate-record dict built by the parsers in `src/scraper.py`
(fields as in the `candidates.append({...})` literals). -/
structure Candidate where
  name : String
  school : String
  graduation_year : Nat
  research_fields : String
  initial_placement : String
  initial_role : String
  current_placement : String
  current_role : String
  linkedin_url : String
deriving DecidableEq, Repr

namespace EconPhDScraper

/-- One row of `EconPhDScraper._parse_tables` (`src/scraper.py`): a row
below the header with at least two cells becomes a candidate after the
header-word / garbage / length / year-window gates.  `nowYear` is
`datetime.now().year`, the default when no year is found in the row. -/
def parseTableRow (nowYear : Nat) (school : String) (cells : List String) :
    Option Candidate :=
  if cells.length < 2 then none
  else
    let name := pyStrip (cells.getD 0 "")
    let fields := if 3 ≤ cells.length then pyStrip (cells.getD 1 "") else ""
    let placement :=
      if 3 ≤ cells.length then pyStrip (cells.getD 2 "")
      else pyStrip (cells.getD 1 "")
    let year := extract_year (String.join cells)
    let nameL := pyLower name
    if nameL = "candidate" ∨ nameL = "name" ∨ nameL = "student" ∨ nameL = "phd" then
      none
    else if pyIn "click on" nameL || pyIn "website" nameL then none
    else if pyIn "building" nameL || pyIn "stanford way" nameL then none
    else if name ≠ "" ∧ 2 < name.length ∧ name.length < 100 then
      match year with
      | Option.none =>
          some ⟨name, school, nowYear, fields, placement, "", "", "", ""⟩
      | some y =>
          if 2020 ≤ y ∧ y ≤ 2025 then
            some ⟨name, school, y, fields, placement, "", "", "", ""⟩
          else none
    else none

/-- Method `EconPhDScraper._parse_tables` on a single table, modelled as the
list of its rows' cell texts; the first row (the header) is skipped. -/
def parse_tables (nowYear : Nat) (school : String)
    (table : List (List String)) : List Candidate :=
  (table.drop 1).filterMap (parseTableRow nowYear school)

/-! ### Orchestrator (`scrape_school` / `scrape_all`) -/

/-- Outcome of `EconPhDScraper.fetch_page`'s externals for one URL:
parseable content, a `requests.RequestException` (caught, routed to
Selenium), a JS-required / too-small page (routed to Selenium), or an
unchanged page (skipped). -/
inductive FetchResult : Type
  | content (html : String) : FetchResult
  | netError : FetchResult
  | needsJs : FetchResult
  | tooSmall : FetchResult
  | unchanged : FetchResult

/-- Shape of `EconPhDScraper.fetch_page`, the returned pair
`(BeautifulSoup | None, needs_selenium)`. -/
def fetch_page : FetchResult → Option String × Bool
  | .content html => (some html, false)
  | .netError => (none, true)
  | .needsJs => (none, true)
  | .tooSmall => (none, true)
  | .unchanged => (none, false)

/-- First loop of `scrape_school`: fetch each URL; a URL flagged
`needs_selenium` is queued, a fetched page is parsed (the parser may
raise: `Except`), an unchanged page is skipped.  Returns the collected
candidates and the queued URLs. -/
def fetchLoop {ε : Type} (parsePage : String → Except ε (List Candidate))
    (fetchO : String → FetchResult) :
    List String → Except ε (List Candidate × List String)
  | [] => .ok ([], [])
  | url :: rest =>
    match fetch_page (fetchO url) with
    | (_, true) =>
      match fetchLoop parsePage fetchO rest with
      | .error e => .error e
      | .ok (cs, pend) => .ok (cs, url :: pend)
    | (some html, false) =>
      match parsePage html with
      | .error e => .error e
      | .ok cands =>
        match fetchLoop parsePage fetchO rest with
        | .error e => .error e
        | .ok (cs, pend) => .ok (cands ++ cs, pend)
    | (none, false) => fetchLoop parsePage fetchO rest

/-- Selenium loop of `scrape_school`: `fetch_page_selenium` catches all
its own exceptions (returning `None` after its retries), so it is an
oracle `String → Option String`; a fetched page is parsed. -/
def selLoop {ε : Type} (parsePage : String → Except ε (List Candidate))
    (selO : String → Option String) :
    List String → Except ε (List Candidate)
  | [] => .ok []
  | url :: rest =>
    match selO url with
    | some html =>
      match parsePage html with
      | .error e => .error e
      | .ok cands =>
        match selLoop parsePage selO rest with
        | .error e => .error e
        | .ok cs => .ok (cands ++ cs)
    | none => selLoop parsePage selO rest

/-- Method `EconPhDScraper.scrape_school` (`src/scraper.py`): fetch all URLs,
retry the queued ones with Selenium, as a last resort (no candidates
and nothing queued) try Selenium on every URL, then keep only tech
placements. -/
def scrape_school {ε : Type} (parsePage : String → Except ε (List Candidate))
    (fetchO : String → FetchResult) (selO : String → Option String)
    (urls : List String) : Except ε (List Candidate) :=
  match fetchLoop parsePage fetchO urls with
  | .error e => .error e
  | .ok (c1, pending) =>
    match selLoop parsePage selO pending with
    | .error e => .error e
    | .ok c2 =>
      if c1 ++ c2 = [] ∧ pending = [] then
        match selLoop parsePage selO urls with
        | .error e => .error e
        | .ok c3 =>
          .ok (((c1 ++ c2) ++ c3).filter fun c =>
            is_tech_placement c.initial_placement)
      else
        .ok ((c1 ++ c2).filter fun c => is_tech_placement c.initial_placement)

/-- Final deduplication key of `scrape_all`:
`df.drop_duplicates(subset=['name', 'school'])` compares the raw cell
values, i.e. the exact `(name, school)` pair. -/
def dedupGo (seen : List (String × String)) : List Candidate → List Candidate
  | [] => []
  | c :: rest =>
    if (c.name, c.school) ∈ seen then dedupGo seen rest
    else c :: dedupGo ((c.name, c.school) :: seen) rest

/-- Model of `drop_duplicates(subset=['name', 'school'])` (pandas `keep='first'`). -/
def drop_duplicates_name_school (l : List Candidate) : List Candidate :=
  dedupGo [] l

/-- The per-school loop of `scrape_all`: `scrape_school` for each
configured school in order, concatenating results.  There is no
`try`/`except` around `scrape_school`, so a parser exception
propagates. -/
def scrapeAllLoop {ε : Type}
    (parsePage : String → String → Except ε (List Candidate))
    (fetchO : String → FetchResult) (selO : String → Option String) :
    List (String × List String) → Except ε (List Candidate)
  | [] => .ok []
  | (school, urls) :: rest =>
    match scrape_school (parsePage school) fetchO selO urls with
    | .error e => .error e
    | .ok cs =>
      match scrapeAllLoop parsePage fetchO selO rest with
      | .error e => .error e
      | .ok css => .ok (cs ++ css)

/-- Method `EconPhDScraper.scrape_all` (`src/scraper.py`): loop over the
configured schools, then deduplicate by `(name, school)`. -/
def scrape_all {ε : Type}
    (parsePage : String → String → Except ε (List Candidate))
    (fetchO : String → FetchResult) (selO : String → Option String)
    (schools : List (String × List String)) : Except ε (List Candidate) :=
  (scrapeAllLoop parsePage fetchO selO schools).map drop_duplicates_name_school

end EconPhDScraper

/-! ## `src/pdf_parser.py` -/

namespace PDFPlacementParser

/-- Set `PDFPlacementParser.TECH_COMPANIES` from `src/pdf_parser.py` (a
Python `set`; the prefix scan in `_parse_text` iterates it in an
implementation-defined order, modelled here in written order — none of
the theorems below depend on that order). -/
def TECH_COMPANIES : List String :=
  [ "google", "meta", "facebook", "amazon", "apple", "microsoft", "netflix",
    "uber", "lyft", "airbnb", "stripe", "doordash", "instacart", "dropbox",
    "slack", "zoom", "spotify", "pinterest", "snap", "twitter", "x corp",
    "tiktok", "bytedance", "reddit", "discord", "nextdoor", "thumbtack", "turo",
    "openai", "anthropic", "deepmind", "cohere", "scale ai", "databricks",
    "perplexity", "xai", "groq", "codeium", "cursor", "anysphere",
    "robinhood", "coinbase", "plaid", "square", "block", "affirm", "chime",
    "sofi", "brex", "toast", "marqeta", "klarna", "revolut",
    "two sigma", "jane street", "citadel", "de shaw", "renaissance", "aqr",
    "point72", "bridgewater", "millennium", "squarepoint", "rokos",
    "salesforce", "oracle", "snowflake", "palantir", "servicenow", "workday",
    "splunk", "crowdstrike", "datadog", "deel", "rippling", "gusto",
    "shopify", "ebay", "wayfair", "etsy", "walmart", "flexport", "faire",
    "nvidia", "intel", "amd", "qualcomm", "tesla", "spacex",
    "zillow", "redfin", "opendoor", "compass", "houzz",
    "booking", "expedia", "tripadvisor", "navan", "hopper", "kayak",
    "linkedin", "indeed", "glassdoor", "yelp", "doximity", "veeva",
    "twilio", "okta", "cloudflare", "mongodb", "elastic",
    "asana", "notion", "figma", "canva", "airtable",
    "grammarly", "duolingo", "coursera", "udemy", "pandora", "adobe" ]

/-- The character test of the regex `20(1[5-9]|2[0-5])` used by
`PDFPlacementParser._extract_year`. -/
def test1525 (c1 c2 c3 c4 : Char) : Bool :=
  c1 = '2' ∧ c2 = '0' ∧
    ((c3 = '1' ∧ '5' ≤ c4 ∧ c4 ≤ '9') ∨ (c3 = '2' ∧ '0' ≤ c4 ∧ c4 ≤ '5'))

/-- Value `int("20" + match)` for a `20(1[5-9]|2[0-5])` match. -/
def value1525 (_ _ c3 c4 : Char) : Nat :=
  2000 + 10 * (c3.toNat - '0'.toNat) + (c4.toNat - '0'.toNat)

/-- Method `PDFPlacementParser._extract_year` from `src/pdf_parser.py`
(window 2015-2025, first match). -/
def extract_year (text : String) : Option Nat :=
  if text = "" then none else scanYear test1525 value1525 text.data

/-- Method `PDFPlacementParser._is_tech_placement` from `src/pdf_parser.py`:
not academia and some `TECH_COMPANIES` entry occurs in the lowered
placement (no garbage checks here, unlike the scraper's variant). -/
def is_tech_placement (placement : String) : Bool :=
  if placement = "" then false
  else if EconGrads.is_academia placement then false
  else TECH_COMPANIES.any fun company => pyIn company (pyLower placement)

/-- Python `str.split()` with no argument: whitespace-separated words,
empty chunks discarded. -/
def pyWords (s : String) : List String :=
  ((s.data.splitOnP pyWs).filter (· ≠ [])).map fun l => String.mk l

/-- Python `word.islower()`: at least one cased character and no
uppercase one (ASCII). -/
def pyIsLower (w : String) : Bool :=
  w.data.any Char.isAlpha ∧ ¬ w.data.any Char.isUpper

/-- Python `str.title()` (ASCII): a letter after a non-letter is
uppercased, a letter after a letter is lowercased. -/
def titleGo : Bool → List Char → List Char
  | _, [] => []
  | prevAlpha, c :: rest =>
    (if c.isAlpha then (if prevAlpha then c.toLower else c.toUpper) else c)
      :: titleGo c.isAlpha rest

/-- Python `str.title()`. -/
def pyTitle (s : String) : String := ⟨titleGo false s.data⟩

/-- Python `line.split(sep, 1)`: split at the first occurrence of
`sep`; `none` when `sep` does not occur. -/
def splitFirstGo (sep : List Char) (acc : List Char) :
    List Char → Option (List Char × List Char)
  | [] => none
  | c :: rest =>
    if sep.isPrefixOf (c :: rest) then some (acc.reverse, (c :: rest).drop sep.length)
    else splitFirstGo sep (c :: acc) rest

/-- Python `line.split(sep, 1)` on strings. -/
def pySplitFirst (sep s : String) : Option (String × String) :=
  (splitFirstGo sep.data [] s.data).map fun p => (⟨p.1⟩, ⟨p.2⟩)

/-- Python `text.split('\n')`. -/
def splitLines (text : String) : List String :=
  (text.data.splitOn '\n').map fun l => String.mk l

/-- Python `s.endswith(suf)`. -/
def pyEndsWith (s suf : String) : Bool := decide (suf.data <:+ s.data)

/-- The word-by-word name extraction of the company-prefix strategy in
`_parse_text` (the loop over `enumerate(words)`): skip the company
word(s), parenthetical counts and lowercase field words; once a
capitalized word is seen, collect the remaining non-skipped words.
`firstIsCompany` is the precomputed `words[0].lower() in TECH_COMPANIES`. -/
def collectGo (firstIsCompany : Bool) : Nat → Bool → List String → List String
  | _, _, [] => []
  | i, found, w :: rest =>
    if i = 0 ∨ (i = 1 ∧ firstIsCompany) then collectGo firstIsCompany (i + 1) found rest
    else if pyStartsWith w "(" ∧ pyEndsWith w ")" then
      collectGo firstIsCompany (i + 1) found rest
    else if pyIsLower w ∨ pyLower w ∈ (["and", "of", "the", "for"] : List String) then
      collectGo firstIsCompany (i + 1) found rest
    else
      let found' := if w ≠ "" ∧ (w.data.getD 0 ' ').isUpper then true else found
      (if found' then [w] else []) ++ collectGo firstIsCompany (i + 1) found' rest

/-- Collect the name words of one line of the company-prefix strategy. -/
def collectNameWords (words : List String) : List String :=
  collectGo (TECH_COMPANIES.contains (pyLower (words.getD 0 ""))) 0 false words

/-- State of the first (company-prefix, UChicago-format) pass of
`_parse_text`: carried year, the private-sector flag, and the
candidates collected so far. -/
structure Pass1State where
  currentYear : Option Nat
  inPrivate : Bool
  acc : List Candidate

/-- One line of the first pass of `PDFPlacementParser._parse_text`. -/
def pass1Step (school : String) (st : Pass1State) (rawLine : String) :
    Pass1State :=
  let line := pyStrip rawLine
  if line = "" then st
  else
    let year := extract_year line
    if year.isSome ∧ (pyIn "–" line || pyIn "-" line) ∧ line.length < 30 then
      { st with currentYear := year }
    else if pyIn "private sector" (pyLower line) then { st with inPrivate := true }
    else if pyIn "academic" (pyLower line) || pyIn "post-doc" (pyLower line)
         || pyIn "public sector" (pyLower line) then { st with inPrivate := false }
    else if ¬ st.inPrivate then st
    else
      match TECH_COMPANIES.find? (fun company => pyStartsWith (pyLower line) company) with
      | Option.none => st
      | some company =>
        let name := String.intercalate " " (collectNameWords (pyWords line))
        if name.length < 3 ∨ 100 < name.length then st
        else
          { st with acc := st.acc ++
              [⟨name, school, st.currentYear.getD 2024, "", pyTitle company,
                "", "", "", ""⟩] }

/-- The separator list of the fallback pass of `_parse_text`. -/
def PASS2_SEPS : List String := [" - ", ": ", " – ", " — "]

/-- The `for sep in [...]` loop body of the fallback pass: try each
separator in order; a guard failure (`continue`) moves to the next
separator, a successful append `break`s. -/
def pass2TrySeps (school : String) (currentYear : Option Nat)
    (acc : List Candidate) (line : String) :
    List String → List Candidate
  | [] => acc
  | sep :: moreSeps =>
    if pyIn sep line then
      match pySplitFirst sep line with
      | Option.none => pass2TrySeps school currentYear acc line moreSeps
      | some (before, after) =>
        let name := pyStrip before
        let placement := pyStrip after
        if name.length < 3 ∨ 100 < name.length then
          pass2TrySeps school currentYear acc line moreSeps
        else if ¬ is_tech_placement placement then
          pass2TrySeps school currentYear acc line moreSeps
        else if acc.any (fun c => c.name = name) then
          pass2TrySeps school currentYear acc line moreSeps
        else
          acc ++ [⟨name, school, currentYear.getD 2024, "",
                   normalize_company placement, "", "", "", ""⟩]
    else pass2TrySeps school currentYear acc line moreSeps

/-- One line of the fallback (separator-based) pass of `_parse_text`;
note there is no private-sector gate in this pass. -/
def pass2Step (school : String) (st : Option Nat × List Candidate)
    (rawLine : String) : Option Nat × List Candidate :=
  let line := pyStrip rawLine
  if line = "" then st
  else
    let year := extract_year line
    if year.isSome ∧ line.length < 20 then (year, st.2)
    else (st.1, pass2TrySeps school st.1 st.2 line PASS2_SEPS)

/-- The first (company-prefix, UChicago-format) pass of `_parse_text`
in isolation: the only pass that consults the private-sector flag. -/
def parse_text_pass1 (school : String) (lines : List String) : List Candidate :=
  (lines.foldl (pass1Step school) ⟨Option.none, false, []⟩).acc

/-- Method `PDFPlacementParser._parse_text` from `src/pdf_parser.py`: the
company-prefix pass over all lines, then the separator-based fallback
pass over all lines appending to the same candidate list. -/
def parse_text (school : String) (text : String) : List Candidate :=
  let lines := splitLines text
  (lines.foldl (pass2Step school) (Option.none, parse_text_pass1 school lines)).2

end PDFPlacementParser

/-! ## `src/enricher.py` -/

namespace Enricher

/-- One row of the candidate table as seen by `src/enricher.py` (CSV
cell values as strings; `citations`/`h_index` numeric). -/
structure Row where
  name : String
  school : String
  initial_placement : String
  research_fields : String
  current_role : String
  current_company : String
  team : String
  work_focus : String
  notes : String
  linkedin_url : String
  citations : Nat
  h_index : Nat
  research_interests : String
  top_publications : String
deriving DecidableEq

/-- The structured info blob returned by the Sonar lookup (the JSON
fields consumed by `main`). -/
structure SonarInfo where
  current_role : String
  current_company : String
  team : String
  work_focus : String
  notes : String
  linkedin_url : String
deriving DecidableEq

/-- Function `is_already_enriched` from `src/enricher.py`: enriched iff the notes
are non-empty and not an `Error:` placeholder, or the current role is a
real (non-placeholder) value; with `check_work_focus` additionally a
real `work_focus`. -/
def is_already_enriched (row : Row) (checkWorkFocus : Bool) : Bool :=
  let notes := pyStrip row.notes
  let currentRole := pyStrip row.current_role
  let hasNotes := notes ≠ "" ∧ ¬ pyStartsWith notes "Error:"
  let hasRole := currentRole ≠ "" ∧
    currentRole ∉ (["", "Unknown", "0", "nan"] : List String)
  let basicEnriched := hasNotes ∨ hasRole
  if checkWorkFocus then
    let workFocus := pyStrip row.work_focus
    basicEnriched ∧ (workFocus ≠ "" ∧
      workFocus ∉ (["", "Unknown", "0", "0.0", "nan"] : List String))
  else basicEnriched

/-- Function `enrich_with_sonar` from `src/enricher.py`: the external lookup is
an `Except`; on an exception `e` the function returns the placeholder
blob (`current_role "Unknown"`, `notes "Error: " + e`, the input
company echoed back) instead of propagating. -/
def enrich_with_sonar (company : String) (call : Except String SonarInfo) :
    SonarInfo :=
  match call with
  | .ok info => info
  | .error e => ⟨"Unknown", company, "Unknown", "Unknown", "Error: " ++ e, ""⟩

/-- The field writes of `main`'s loop body (`df.at[idx, ...] = ...`),
in the `include_scholar=False` configuration: the Sonar fields are
written, `current_company` goes through
`standardize_current_placement`, and the scholar fields get the
`info.get(..., default)` defaults. -/
def applyInfo (row : Row) (info : SonarInfo) : Row :=
  { row with
    current_role := info.current_role
    current_company :=
      if info.current_company ≠ "" then
        standardize_current_placement info.current_company
      else ""
    team := info.team
    work_focus := info.work_focus
    notes := info.notes
    linkedin_url := info.linkedin_url
    citations := 0
    h_index := 0
    research_interests := ""
    top_publications := "[]" }

/-- One iteration of `main`'s enrichment loop: skip (row unchanged, no
lookup) when not forced and already enriched, otherwise call the lookup
through `enrich_with_sonar` and write the fields.  The boolean records
whether the enrichment capability was invoked for this row. -/
def processRow (force checkWorkFocus : Bool)
    (lookup : Row → Except String SonarInfo) (row : Row) : Row × Bool :=
  if ¬ force ∧ is_already_enriched row checkWorkFocus then (row, false)
  else (applyInfo row (enrich_with_sonar row.initial_placement (lookup row)), true)

/-- The whole enrichment pass over the table: every row is processed in
turn; `processRow` is total, so the batch always reaches the end. -/
def enrichBatch (force checkWorkFocus : Bool)
    (lookup : Row → Except String SonarInfo) (rows : List Row) : List Row :=
  rows.map fun r => (processRow force checkWorkFocus lookup r).1

end Enricher

/-! ## Claim-specific fixtures -/

/-- The end-to-end fixture table of the spec (header plus three rows). -/
def tableFixture : List (List String) :=
  [ ["Name", "Placement"],
    ["Alice Kim", "Senior Economist, Amazon"],
    ["Bob Lee", "Assistant Professor, Yale"],
    ["2023", "Google"] ]

/-- The pipeline the end-to-end claim describes: the generic table
strategy (`_parse_tables`), then `scrape_school`'s tech-placement
filter, then `save`'s `normalize_company` on `initial_placement`. -/
def tablePipeline (nowYear : Nat) (school : String)
    (table : List (List String)) : List Candidate :=
  ((EconPhDScraper.parse_tables nowYear school table).filter
      (fun c => EconPhDScraper.is_tech_placement c.initial_placement)).map
    fun c => { c with initial_placement := normalize_company c.initial_placement }

/-- A parser oracle for the partial-failure scenario: it raises on the
document `"BOOM"` and returns one Google candidate otherwise. -/
def c1Parse (school html : String) : Except String (List Candidate) :=
  if html = "BOOM" then .error "parser exception"
  else .ok [⟨"Jane Doe", school, 2024, "", "Google", "", "", "", ""⟩]

/-- A fetch oracle for the partial-failure scenario: URL `"u1"` serves
the document that makes the parser raise, every other URL serves a
parseable document. -/
def c1Fetch (url : String) : EconPhDScraper.FetchResult :=
  .content (if url = "u1" then "BOOM" else "OK")

/-- A Selenium oracle that always fails (returns `None`). -/
def c1Sel (_ : String) : Option String := Option.none

/-- Two configured sources; the first one's parser raises. -/
def c1Schools : List (String × List String) := [("A", ["u1"]), ("B", ["u2"])]

/-- A fetch oracle on which every URL fails with a network error. -/
def c1FetchAllFail (_ : String) : EconPhDScraper.FetchResult := .netError

/-- The year window of the scraper/base-parser regex `20(2[0-5])`. -/
def YEARS_2020_2025 : List Nat := [2020, 2021, 2022, 2023, 2024, 2025]

/-- The year window of the PDF-parser regex `20(1[5-9]|2[0-5])`. -/
def YEARS_2015_2025 : List Nat :=
  [2015, 2016, 2017, 2018, 2019, 2020, 2021, 2022, 2023, 2024, 2025]

/-- A concrete already-enriched row (real `current_role`), for the
incremental-enrichment witness. -/
def sampleEnrichedRow : Enricher.Row :=
  ⟨"Jane Doe", "MIT", "Google", "", "Senior Economist", "Google",
   "Pricing", "Causal inference", "Works on pricing", "", 0, 0, "", ""⟩

/-! ## Helper lemmas on the string primitives -/

theorem char_le_iff_toNat {a b : Char} : a ≤ b ↔ a.toNat ≤ b.toNat := by
  simp [Char.le_def, UInt32.le_def, BitVec.le_def, Char.toNat, UInt32.toNat]

theorem char_toNat_ofNat {n : Nat} (h : n.isValidChar) :
    (Char.ofNat n).toNat = n := by
  simp [Char.ofNat, h, Char.ofNatAux, Char.toNat, UInt32.toNat]

theorem char_eq_of_toNat_eq {a b : Char} (h : a.toNat = b.toNat) : a = b := by
  have ha := Char.ofNat_toNat a
  rw [← ha, h, Char.ofNat_toNat]

theorem pyWs_iff {c : Char} :
    pyWs c = true ↔ c.toNat = 32 ∨ c.toNat = 9 ∨ c.toNat = 13 ∨ c.toNat = 10 := by
  unfold pyWs Char.isWhitespace
  simp only [Bool.or_eq_true, decide_eq_true_eq]
  constructor
  · rintro (((h | h) | h) | h) <;> subst h <;> decide
  · rintro (h | h | h | h)
    · exact Or.inl (Or.inl (Or.inl (char_eq_of_toNat_eq (by rw [h]; decide))))
    · exact Or.inl (Or.inl (Or.inr (char_eq_of_toNat_eq (by rw [h]; decide))))
    · exact Or.inl (Or.inr (char_eq_of_toNat_eq (by rw [h]; decide)))
    · exact Or.inr (char_eq_of_toNat_eq (by rw [h]; decide))

theorem pyWs_toLower (c : Char) : pyWs c.toLower = pyWs c := by
  unfold Char.toLower
  by_cases h : c.toNat ≥ 65 ∧ c.toNat ≤ 90
  · rw [if_pos h]
    have hv : (c.toNat + 32).isValidChar := Or.inl (by omega)
    have h1 : (Char.ofNat (c.toNat + 32)).toNat = c.toNat + 32 := char_toNat_ofNat hv
    have hl : pyWs (Char.ofNat (c.toNat + 32)) = false := by
      rw [← Bool.not_eq_true, pyWs_iff, h1]
      omega
    have hr : pyWs c = false := by
      rw [← Bool.not_eq_true, pyWs_iff]
      omega
    rw [hl, hr]
  · rw [if_neg h]

theorem dropWhile_map_toLower (l : List Char) :
    (l.map Char.toLower).dropWhile pyWs = (l.dropWhile pyWs).map Char.toLower := by
  induction l with
  | nil => rfl
  | cons c t ih =>
    simp only [List.map_cons, List.dropWhile_cons, pyWs_toLower]
    by_cases h : pyWs c = true
    · simp [h, ih]
    · simp [h]

theorem rdropWhile_map_toLower (l : List Char) :
    (l.map Char.toLower).rdropWhile pyWs = (l.rdropWhile pyWs).map Char.toLower := by
  unfold List.rdropWhile
  rw [← List.map_reverse, dropWhile_map_toLower, List.map_reverse]

theorem pyStripL_map_toLower (l : List Char) :
    pyStripL (l.map Char.toLower) = (pyStripL l).map Char.toLower := by
  unfold pyStripL
  rw [dropWhile_map_toLower, rdropWhile_map_toLower]

theorem pyLower_pyStrip (s : String) : pyLower (pyStrip s) = pyStrip (pyLower s) := by
  unfold pyLower pyStrip
  exact congrArg String.mk (pyStripL_map_toLower s.data).symm

theorem dropWhile_head_false {α : Type} {p : α → Bool} {l t : List α} {c : α}
    (h : l.dropWhile p = c :: t) : p c = false := by
  induction l with
  | nil => simp at h
  | cons a l ih =>
    rw [List.dropWhile_cons] at h
    split at h
    · exact ih h
    · cases h
      rename_i hneg
      simpa using hneg

theorem dropWhile_pyStripL (l : List Char) :
    (pyStripL l).dropWhile pyWs = pyStripL l := by
  cases hs : pyStripL l with
  | nil => rfl
  | cons c t =>
    have hpre : pyStripL l <+: l.dropWhile pyWs := List.rdropWhile_prefix _ _
    rw [hs] at hpre
    obtain ⟨r, hr⟩ := hpre
    have hdw : l.dropWhile pyWs = c :: (t ++ r) := by
      rw [← hr, List.cons_append]
    have hc : pyWs c = false := dropWhile_head_false hdw
    rw [List.dropWhile_cons, hc]
    simp

theorem pyStripL_idem (l : List Char) : pyStripL (pyStripL l) = pyStripL l := by
  show ((pyStripL l).dropWhile pyWs).rdropWhile pyWs = pyStripL l
  rw [dropWhile_pyStripL]
  exact List.rdropWhile_idempotent _ _

theorem pyStrip_idem (s : String) : pyStrip (pyStrip s) = pyStrip s := by
  show (⟨pyStripL (pyStripL s.data)⟩ : String) = ⟨pyStripL s.data⟩
  rw [pyStripL_idem]

theorem aliasLookup_mem {nl c : String} (h : aliasLookup nl = some c) :
    ∃ p ∈ COMPANY_ALIASES, p.1 = c := by
  obtain ⟨p, hp, hf⟩ := List.exists_of_findSome?_eq_some h
  refine ⟨p, hp, ?_⟩
  by_cases hc : p.2.any (fun a => pyIn a nl) = true
  · rw [if_pos hc] at hf
    exact Option.some.inj hf
  · rw [if_neg hc] at hf
    cases hf

theorem canonical_fixed : ∀ p ∈ COMPANY_ALIASES, normalize_company p.1 = p.1 := by
  decide

/-! ## Claim theorems -/

/-- C4 (confirmed).  Idempotence of company normalization: for every
string `s`, `normalize_company (normalize_company s) = normalize_company s`;
every output of `normalize_company` — a canonical alias-table key or the
trimmed original — is a fixed point of the ordered case-insensitive
substring alias lookup. -/
theorem C4_normalize_company_idempotent (s : String) :
    normalize_company (normalize_company s) = normalize_company s := by
  by_cases hs : s = ""
  · subst hs; rfl
  · cases hA : aliasLookup (pyStrip (pyLower s)) with
    | some canonical =>
      have hn : normalize_company s = canonical := by
        unfold normalize_company
        rw [if_neg hs, hA]
      obtain ⟨p, hp, hpc⟩ := aliasLookup_mem hA
      rw [hn, ← hpc]
      exact canonical_fixed p hp
    | none =>
      have hn : normalize_company s = pyStrip s := by
        unfold normalize_company
        rw [if_neg hs, hA]
      rw [hn]
      by_cases ht : pyStrip s = ""
      · rw [ht]; rfl
      · have key : pyStrip (pyLower (pyStrip s)) = pyStrip (pyLower s) := by
          rw [pyLower_pyStrip, pyStrip_idem]
        unfold normalize_company
        rw [if_neg ht, key, hA, pyStrip_idem]

/-- C10 counterexample.  The claim says no Normalizer function raises on
missing/NaN input, but `is_tech_placement` applied to a float `NaN`
(truthy, so it passes the `if not placement` guard) calls
`placement.lower()` and raises `AttributeError`. -/
theorem C10_counterexample_nan_raises :
    is_tech_placement_py PyVal.nan ["google"] = Except.error "AttributeError" ∧
      is_tech_placement_py PyVal.nan ["google"] ≠ Except.ok false := by
  constructor
  · rfl
  · intro h
    cases h

/-- C10 (corrected).  At the Normalizer interface: `normalize_company`
and `standardize_current_placement` return empty/`None`/`NaN` inputs
unchanged, `is_academia` returns `false` on them, and
`is_tech_placement` returns `false` on empty and `None` input — but on
`NaN` input `is_tech_placement` raises `AttributeError` instead of
returning `false` (NaN is truthy and has no `.lower`). -/
theorem C10_normalizer_missing_input (tech : List String) :
    normalize_company_py PyVal.none = PyVal.none ∧
    normalize_company_py PyVal.nan = PyVal.nan ∧
    normalize_company_py (PyVal.str "") = PyVal.str "" ∧
    standardize_current_placement_py PyVal.none = PyVal.none ∧
    standardize_current_placement_py PyVal.nan = PyVal.nan ∧
    standardize_current_placement_py (PyVal.str "") = PyVal.str "" ∧
    is_academia_py PyVal.none = false ∧
    is_academia_py PyVal.nan = false ∧
    is_academia_py (PyVal.str "") = false ∧
    is_tech_placement_py PyVal.none tech = Except.ok false ∧
    is_tech_placement_py (PyVal.str "") tech = Except.ok false ∧
    is_tech_placement_py PyVal.nan tech = Except.error "AttributeError" := by
  refine ⟨rfl, rfl, rfl, rfl, rfl, rfl, rfl, rfl, rfl, rfl, rfl, rfl⟩

/-- C8 (confirmed).  Incremental enrichment: in the non-forced default
pass, a row whose `current_role` holds a real (non-placeholder) value is
skipped — the enrichment capability is not invoked and the row is
returned unchanged; with `force = true` every row is processed. -/
theorem C8_incremental_enrichment :
    (∀ (lookup : Enricher.Row → Except String Enricher.SonarInfo)
        (row : Enricher.Row),
        pyStrip row.current_role ≠ "" ∧
          pyStrip row.current_role ∉ (["", "Unknown", "0", "nan"] : List String) →
        Enricher.processRow false false lookup row = (row, false)) ∧
    (∀ (lookup : Enricher.Row → Except String Enricher.SonarInfo)
        (checkWorkFocus : Bool) (row : Enricher.Row),
        (Enricher.processRow true checkWorkFocus lookup row).2 = true) := by
  constructor
  · intro lookup row hrole
    have henr : Enricher.is_already_enriched row false = true := by
      unfold Enricher.is_already_enriched
      simp only [if_neg (Bool.false_ne_true)]
      exact decide_eq_true (Or.inr hrole)
    unfold Enricher.processRow
    rw [if_pos (by simp [henr])]
  · intro lookup checkWorkFocus row
    unfold Enricher.processRow
    simp

theorem dropWhile_eq_self_of_all {α : Type} {q : α → Bool} {l : List α}
    (h : ∀ x ∈ l, q x = false) : l.dropWhile q = l := by
  cases l with
  | nil => rfl
  | cons c t =>
    exact List.dropWhile_cons_of_neg (by simp [h c (List.mem_cons_self c t)])

theorem prefix_rdropWhile_nonws {p m : List Char}
    (hp : ∀ c ∈ p, pyWs c = false) : p <+: (p ++ m).rdropWhile pyWs := by
  unfold List.rdropWhile
  rw [List.reverse_append, List.dropWhile_append]
  by_cases hm : (m.reverse.dropWhile pyWs).isEmpty = true
  · rw [if_pos hm]
    have hself : p.reverse.dropWhile pyWs = p.reverse :=
      dropWhile_eq_self_of_all fun x hx => hp x (List.mem_reverse.mp hx)
    rw [hself, List.reverse_reverse]
  · rw [if_neg hm, List.reverse_append, List.reverse_reverse]
    exact ⟨_, rfl⟩

theorem errorNotes_startsWith (e : String) :
    pyStartsWith (pyStrip ("Error: " ++ e)) "Error:" = true := by
  unfold pyStartsWith pyStrip pyStripL
  apply decide_eq_true
  have h1 : ("Error: " ++ e).data =
      'E' :: 'r' :: 'r' :: 'o' :: 'r' :: ':' :: ' ' :: e.data := by
    rw [String.data_append]
    rfl
  rw [h1, List.dropWhile_cons_of_neg (by decide)]
  have h2 : ('E' :: 'r' :: 'r' :: 'o' :: 'r' :: ':' :: ' ' :: e.data) =
      "Error:".data ++ (' ' :: e.data) := rfl
  rw [h2]
  exact prefix_rdropWhile_nonws (by decide)

/-- C9 (confirmed).  Enrichment-call failure recovery: when the external
lookup raises, `enrich_with_sonar` returns the placeholder blob
(`current_role "Unknown"`, notes `"Error: " + e`) instead of
propagating; the written row is recognized as not-yet-enriched by
`is_already_enriched` in any mode (so a later non-forced pass retries
it); and the batch always processes every row (length preserved), so it
continues past the failing record. -/
theorem C9_enrichment_failure_recovery :
    (∀ (company e : String),
        Enricher.enrich_with_sonar company (Except.error e) =
          ⟨"Unknown", company, "Unknown", "Unknown", "Error: " ++ e, ""⟩) ∧
    (∀ (row : Enricher.Row) (e : String) (checkWorkFocus : Bool),
        (Enricher.applyInfo row
            (Enricher.enrich_with_sonar row.initial_placement
              (Except.error e))).current_role = "Unknown" ∧
        (Enricher.applyInfo row
            (Enricher.enrich_with_sonar row.initial_placement
              (Except.error e))).notes = "Error: " ++ e ∧
        Enricher.is_already_enriched
          (Enricher.applyInfo row
            (Enricher.enrich_with_sonar row.initial_placement
              (Except.error e))) checkWorkFocus = false) ∧
    (∀ (force checkWorkFocus : Bool)
        (lookup : Enricher.Row → Except String Enricher.SonarInfo)
        (rows : List Enricher.Row),
        (Enricher.enrichBatch force checkWorkFocus lookup rows).length =
          rows.length) := by
  refine ⟨fun company e => rfl, ?_, fun force cwf lookup rows => List.length_map _ _⟩
  intro row e checkWorkFocus
  refine ⟨rfl, rfl, ?_⟩
  have hnotes := errorNotes_startsWith e
  have hbasic : ¬ (pyStrip ("Error: " ++ e) ≠ "" ∧
      ¬ pyStartsWith (pyStrip ("Error: " ++ e)) "Error:" = true ∨
      pyStrip "Unknown" ≠ "" ∧
        pyStrip "Unknown" ∉ (["", "Unknown", "0", "nan"] : List String)) := by
    rintro (⟨h1, h2⟩ | ⟨h1, h2⟩)
    · exact h2 hnotes
    · exact h2 (by decide)
  unfold Enricher.is_already_enriched Enricher.applyInfo
  cases checkWorkFocus with
  | false =>
    simp only [if_neg (Bool.false_ne_true)]
    exact decide_eq_false hbasic
  | true =>
    rw [if_pos rfl]
    apply decide_eq_false
    rintro ⟨hb, _⟩
    exact hbasic hb

/-- C2 counterexample.  On the fixture table the generic table strategy
followed by the tech-placement filter (and `save`'s normalization) does
NOT yield exactly one candidate: it yields two — `Alice Kim` (placement
normalized to `Amazon`) and the bare-year row `"2023"` (placement
`Google`), because `_parse_tables`' name gate checks only length and a
fixed garbage-phrase list, never "is a bare 4-digit year". -/
theorem C2_counterexample :
    (tablePipeline 2025 "TestU" tableFixture).map
        (fun c => (c.name, c.initial_placement)) =
      [("Alice Kim", "Amazon"), ("2023", "Google")] ∧
    (tablePipeline 2025 "TestU" tableFixture).length ≠ 1 := by
  constructor
  · rfl
  · intro h
    have h2 : (tablePipeline 2025 "TestU" tableFixture).length = 2 := rfl
    omega

/-- C2 (corrected).  End-to-end fixture: the pipeline yields exactly the
two candidates `Alice Kim` (placement normalized to `Amazon`,
graduation year defaulting to the current year) and the `"2023"` row
(placement `Google`, year 2023); `Bob Lee` is excluded as academia; a
length-1 name is rejected by the `len(name) > 2` gate; name `"Jane
Doe"` with placement `"Google"` is accepted.  A bare-4-digit-year name
is NOT rejected by the generic table strategy. -/
theorem C2_fixture_pipeline (nowYear : Nat) (school : String) :
    tablePipeline nowYear school tableFixture =
      [⟨"Alice Kim", school, nowYear, "", "Amazon", "", "", "", ""⟩,
       ⟨"2023", school, 2023, "", "Google", "", "", "", ""⟩] ∧
    is_academia "Assistant Professor, Yale" = true ∧
    EconPhDScraper.is_tech_placement "Assistant Professor, Yale" = false ∧
    tablePipeline nowYear school [["Name", "Placement"], ["A", "Google"]] = [] ∧
    (tablePipeline nowYear school
        [["Name", "Placement"], ["Jane Doe", "Google"]]).map
        (fun c => (c.name, c.initial_placement)) = [("Jane Doe", "Google")] := by
  refine ⟨rfl, by decide, by decide, rfl, rfl⟩

theorem dedupGo_subset {seen : List (String × String)} {l : List Candidate}
    {c : Candidate} (h : c ∈ EconPhDScraper.dedupGo seen l) : c ∈ l := by
  induction l generalizing seen with
  | nil => simp [EconPhDScraper.dedupGo] at h
  | cons a rest ih =>
    unfold EconPhDScraper.dedupGo at h
    by_cases hm : (a.name, a.school) ∈ seen
    · rw [if_pos hm] at h
      exact List.mem_cons_of_mem a (ih h)
    · rw [if_neg hm] at h
      rcases List.mem_cons.mp h with rfl | h2
      · exact List.mem_cons_self _ _
      · exact List.mem_cons_of_mem a (ih h2)

theorem dedupGo_not_seen {seen : List (String × String)} {l : List Candidate}
    {c : Candidate} (h : c ∈ EconPhDScraper.dedupGo seen l) :
    (c.name, c.school) ∉ seen := by
  induction l generalizing seen with
  | nil => simp [EconPhDScraper.dedupGo] at h
  | cons a rest ih =>
    unfold EconPhDScraper.dedupGo at h
    by_cases hm : (a.name, a.school) ∈ seen
    · rw [if_pos hm] at h
      exact ih h
    · rw [if_neg hm] at h
      rcases List.mem_cons.mp h with rfl | h2
      · exact hm
      · intro hc
        exact ih h2 (List.mem_cons_of_mem _ hc)

theorem dedupGo_pairwise (seen : List (String × String)) (l : List Candidate) :
    (EconPhDScraper.dedupGo seen l).Pairwise
      (fun a b => (a.name, a.school) ≠ (b.name, b.school)) := by
  induction l generalizing seen with
  | nil => exact List.Pairwise.nil
  | cons a rest ih =>
    unfold EconPhDScraper.dedupGo
    by_cases hm : (a.name, a.school) ∈ seen
    · rw [if_pos hm]
      exact ih _
    · rw [if_neg hm]
      refine List.Pairwise.cons ?_ (ih _)
      intro b hb heq
      exact dedupGo_not_seen hb (by rw [← heq]; exact List.mem_cons_self _ _)

theorem dedupGo_covers {seen : List (String × String)} {l : List Candidate}
    {c : Candidate} (hc : c ∈ l) :
    (c.name, c.school) ∈ seen ∨
      ∃ c' ∈ EconPhDScraper.dedupGo seen l,
        (c'.name, c'.school) = (c.name, c.school) := by
  induction l generalizing seen with
  | nil => cases hc
  | cons a rest ih =>
    unfold EconPhDScraper.dedupGo
    by_cases hm : (a.name, a.school) ∈ seen
    · rw [if_pos hm]
      rcases List.mem_cons.mp hc with rfl | h2
      · exact Or.inl hm
      · exact ih h2
    · rw [if_neg hm]
      rcases List.mem_cons.mp hc with rfl | h2
      · exact Or.inr ⟨c, List.mem_cons_self _ _, rfl⟩
      · rcases @ih ((a.name, a.school) :: seen) h2 with hs | ⟨c', hc', he⟩
        · rcases List.mem_cons.mp hs with he | hs
          · exact Or.inr ⟨a, List.mem_cons_self _ _, he.symm⟩
          · exact Or.inl hs
        · exact Or.inr ⟨c', List.mem_cons_of_mem _ hc', he⟩

/-- C6 counterexample.  The final dedup key is the RAW `(name, school)`
pair, not a normalized name: two records whose names differ only by
case (equal after lowercase normalization) at the same school both
survive `drop_duplicates(subset=['name', 'school'])`. -/
theorem C6_counterexample :
    EconPhDScraper.drop_duplicates_name_school
        [⟨"John Smith", "MIT", 2024, "", "Amazon", "", "", "", ""⟩,
         ⟨"john smith", "MIT", 2024, "", "Amazon", "", "", "", ""⟩] =
      [⟨"John Smith", "MIT", 2024, "", "Amazon", "", "", "", ""⟩,
       ⟨"john smith", "MIT", 2024, "", "Amazon", "", "", "", ""⟩] ∧
    pyLower (pyStrip "John Smith") = pyLower (pyStrip "john smith") := by
  exact ⟨rfl, rfl⟩

/-- C6 (corrected).  Final deduplication is keyed on the exact
`(name, school)` pair (first occurrence kept): two records with the
same raw name at the same school collapse to the first; records whose
`(name, school)` pairs differ (in particular the same name at two
different schools) both remain; in general the output is a sublist of
the input with pairwise-distinct keys that covers every input key. -/
theorem C6_final_dedup :
    (∀ c1 c2 : Candidate, c1.name = c2.name → c1.school = c2.school →
        EconPhDScraper.drop_duplicates_name_school [c1, c2] = [c1]) ∧
    (∀ c1 c2 : Candidate, (c1.name, c1.school) ≠ (c2.name, c2.school) →
        EconPhDScraper.drop_duplicates_name_school [c1, c2] = [c1, c2]) ∧
    (∀ (l : List Candidate) (c : Candidate),
        c ∈ EconPhDScraper.drop_duplicates_name_school l → c ∈ l) ∧
    (∀ l : List Candidate,
        (EconPhDScraper.drop_duplicates_name_school l).Pairwise
          (fun a b => (a.name, a.school) ≠ (b.name, b.school))) ∧
    (∀ (l : List Candidate) (c : Candidate), c ∈ l →
        ∃ c' ∈ EconPhDScraper.drop_duplicates_name_school l,
          (c'.name, c'.school) = (c.name, c.school)) := by
  refine ⟨?_, ?_, ?_, ?_, ?_⟩
  · intro c1 c2 hn hs
    unfold EconPhDScraper.drop_duplicates_name_school EconPhDScraper.dedupGo
    rw [if_neg (by simp)]
    unfold EconPhDScraper.dedupGo
    rw [if_pos (by simp [hn, hs])]
    rfl
  · intro c1 c2 hne
    unfold EconPhDScraper.drop_duplicates_name_school EconPhDScraper.dedupGo
    rw [if_neg (by simp)]
    unfold EconPhDScraper.dedupGo
    rw [if_neg (fun h => hne (List.mem_singleton.mp h).symm)]
    rfl
  · intro l c h
    exact dedupGo_subset h
  · intro l
    exact dedupGo_pairwise [] l
  · intro l c hc
    rcases @dedupGo_covers [] l c hc with hs | h
    · cases hs
    · exact h

/-- C6 witness: the two concrete scenarios — duplicate "John Smith" at
the same school collapses to one record (the first), "John Smith" at
two different schools stays as two records. -/
theorem C6_final_dedup_witness :
    EconPhDScraper.drop_duplicates_name_school
        [⟨"John Smith", "MIT", 2024, "", "Amazon", "", "", "", ""⟩,
         ⟨"John Smith", "MIT", 2023, "", "Google", "", "", "", ""⟩] =
      [⟨"John Smith", "MIT", 2024, "", "Amazon", "", "", "", ""⟩] ∧
    EconPhDScraper.drop_duplicates_name_school
        [⟨"John Smith", "MIT", 2024, "", "Amazon", "", "", "", ""⟩,
         ⟨"John Smith", "Yale", 2024, "", "Amazon", "", "", "", ""⟩] =
      [⟨"John Smith", "MIT", 2024, "", "Amazon", "", "", "", ""⟩,
       ⟨"John Smith", "Yale", 2024, "", "Amazon", "", "", "", ""⟩] :=
  ⟨C6_final_dedup.1 _ _ rfl rfl,
   C6_final_dedup.2.1 _ _ (by decide)⟩

theorem pass1Step_no_private {school : String} {st : PDFPlacementParser.Pass1State}
    {rawLine : String}
    (hline : pyIn "private sector" (pyLower (pyStrip rawLine)) = false)
    (hst : st.inPrivate = false) :
    (PDFPlacementParser.pass1Step school st rawLine).inPrivate = false ∧
      (PDFPlacementParser.pass1Step school st rawLine).acc = st.acc := by
  unfold PDFPlacementParser.pass1Step
  dsimp only
  split
  · exact ⟨hst, rfl⟩
  · split
    · exact ⟨hst, rfl⟩
    · split
      · rename_i hpriv
        simp [hline] at hpriv
      · split
        · exact ⟨rfl, rfl⟩
        · split
          · exact ⟨hst, rfl⟩
          · rename_i hnp
            simp [hst] at hnp

theorem pass1_foldl_no_private {school : String} {lines : List String}
    (h : ∀ line ∈ lines, pyIn "private sector" (pyLower (pyStrip line)) = false) :
    ∀ st : PDFPlacementParser.Pass1State, st.inPrivate = false →
      (lines.foldl (PDFPlacementParser.pass1Step school) st).inPrivate = false ∧
        (lines.foldl (PDFPlacementParser.pass1Step school) st).acc = st.acc := by
  induction lines with
  | nil => exact fun st hst => ⟨hst, rfl⟩
  | cons a rest ih =>
    intro st hst
    have ha := h a (List.mem_cons_self _ _)
    have hstep := @pass1Step_no_private school st a ha hst
    have ih' := ih (fun l hl => h l (List.mem_cons_of_mem _ hl))
      (PDFPlacementParser.pass1Step school st a) hstep.1
    refine ⟨ih'.1, ?_⟩
    rw [List.foldl_cons, ih'.2, hstep.2]

/-- C5 counterexample.  A document with NO private-sector section at all
(every line, here the single line `"John Smith - Amazon"`, is outside
any private-sector section) still yields a candidate from
`_parse_text`: the separator-based fallback pass has no private-sector
gate and matches the `" - "` name-separator pattern. -/
theorem C5_counterexample :
    PDFPlacementParser.parse_text "University of Chicago"
        "John Smith - Amazon" =
      [⟨"John Smith", "University of Chicago", 2024, "", "Amazon",
        "", "", "", ""⟩] ∧
    (∀ line ∈ PDFPlacementParser.splitLines "John Smith - Amazon",
        pyIn "private sector" (pyLower (pyStrip line)) = false) := by
  exact ⟨rfl, by decide⟩

/-- C5 (corrected).  The private-sector scope boundary holds for the
company-prefix (UChicago-format) strategy only: if no line of the
document contains `"private sector"`, that pass emits no candidate —
the private-sector flag never becomes true and its accumulator stays
empty.  (The separator-based fallback pass of `_parse_text` has no such
gate; see the counterexample.) -/
theorem C5_pass1_private_sector_scope (school : String) (lines : List String)
    (h : ∀ line ∈ lines, pyIn "private sector" (pyLower (pyStrip line)) = false) :
    PDFPlacementParser.parse_text_pass1 school lines = [] := by
  unfold PDFPlacementParser.parse_text_pass1
  exact (pass1_foldl_no_private h _ rfl).2

/-- C5 witness: on a concrete document with only an academic section,
the company-prefix pass emits nothing. -/
theorem C5_pass1_private_sector_scope_witness :
    PDFPlacementParser.parse_text_pass1 "University of Chicago"
      ["Academic Placements", "Amazon (3) trade John Smith"] = [] :=
  C5_pass1_private_sector_scope _ _ (by decide)

theorem fetchLoop_total {ε : Type} {parsePage : String → Except ε (List Candidate)}
    {fetchO : String → EconPhDScraper.FetchResult}
    (hp : ∀ html, ∃ r, parsePage html = .ok r) :
    ∀ urls, ∃ p, EconPhDScraper.fetchLoop parsePage fetchO urls = .ok p := by
  intro urls
  induction urls with
  | nil => exact ⟨([], []), rfl⟩
  | cons url rest ih =>
    obtain ⟨p, hrec⟩ := ih
    unfold EconPhDScraper.fetchLoop
    cases hu : fetchO url with
    | content html =>
      obtain ⟨r, hr⟩ := hp html
      exact ⟨(r ++ p.1, p.2), by simp [EconPhDScraper.fetch_page, hr, hrec]⟩
    | netError => exact ⟨(p.1, url :: p.2), by simp [EconPhDScraper.fetch_page, hrec]⟩
    | needsJs => exact ⟨(p.1, url :: p.2), by simp [EconPhDScraper.fetch_page, hrec]⟩
    | tooSmall => exact ⟨(p.1, url :: p.2), by simp [EconPhDScraper.fetch_page, hrec]⟩
    | unchanged => exact ⟨p, by simp [EconPhDScraper.fetch_page, hrec]⟩

theorem selLoop_total {ε : Type} {parsePage : String → Except ε (List Candidate)}
    {selO : String → Option String}
    (hp : ∀ html, ∃ r, parsePage html = .ok r) :
    ∀ urls, ∃ cs, EconPhDScraper.selLoop parsePage selO urls = .ok cs := by
  intro urls
  induction urls with
  | nil => exact ⟨[], rfl⟩
  | cons url rest ih =>
    obtain ⟨cs, hrec⟩ := ih
    unfold EconPhDScraper.selLoop
    cases hu : selO url with
    | some html =>
      obtain ⟨r, hr⟩ := hp html
      exact ⟨r ++ cs, by simp [hr, hrec]⟩
    | none => exact ⟨cs, by simp [hrec]⟩

theorem scrape_school_total {ε : Type}
    {parsePage : String → Except ε (List Candidate)}
    {fetchO : String → EconPhDScraper.FetchResult} {selO : String → Option String}
    (hp : ∀ html, ∃ r, parsePage html = .ok r) (urls : List String) :
    ∃ cs, EconPhDScraper.scrape_school parsePage fetchO selO urls = .ok cs := by
  obtain ⟨⟨c1, pending⟩, hfl⟩ := fetchLoop_total hp urls
  obtain ⟨c2, hsl⟩ := @selLoop_total ε parsePage selO hp pending
  obtain ⟨c3, hsl2⟩ := @selLoop_total ε parsePage selO hp urls
  unfold EconPhDScraper.scrape_school
  rw [hfl]
  dsimp only
  rw [hsl]
  dsimp only
  by_cases hc : c1 ++ c2 = [] ∧ pending = []
  · rw [if_pos hc, hsl2]
    exact ⟨_, rfl⟩
  · rw [if_neg hc]
    exact ⟨_, rfl⟩

theorem scrapeAllLoop_total {ε : Type}
    {parsePage : String → String → Except ε (List Candidate)}
    {fetchO : String → EconPhDScraper.FetchResult} {selO : String → Option String}
    (hp : ∀ school html, ∃ r, parsePage school html = .ok r) :
    ∀ schools, ∃ l,
      EconPhDScraper.scrapeAllLoop parsePage fetchO selO schools = .ok l := by
  intro schools
  induction schools with
  | nil => exact ⟨[], rfl⟩
  | cons sc rest ih =>
    obtain ⟨l, hrec⟩ := ih
    obtain ⟨cs, hs⟩ :=
      @scrape_school_total ε (parsePage sc.1) fetchO selO (hp sc.1) sc.2
    unfold EconPhDScraper.scrapeAllLoop
    exact ⟨cs ++ l, by rw [hs, hrec]⟩

theorem fetchLoop_allFail {ε : Type} {parsePage : String → Except ε (List Candidate)}
    {fetchO : String → EconPhDScraper.FetchResult} {urls : List String}
    (h : ∀ u ∈ urls, fetchO u = .netError) :
    EconPhDScraper.fetchLoop parsePage fetchO urls = .ok ([], urls) := by
  induction urls with
  | nil => rfl
  | cons url rest ih =>
    unfold EconPhDScraper.fetchLoop
    rw [h url (List.mem_cons_self _ _)]
    rw [ih fun u hu => h u (List.mem_cons_of_mem _ hu)]
    rfl

theorem selLoop_allFail {ε : Type} {parsePage : String → Except ε (List Candidate)}
    {selO : String → Option String} {urls : List String}
    (h : ∀ u ∈ urls, selO u = Option.none) :
    EconPhDScraper.selLoop parsePage selO urls = .ok [] := by
  induction urls with
  | nil => rfl
  | cons url rest ih =>
    unfold EconPhDScraper.selLoop
    rw [h url (List.mem_cons_self _ _)]
    exact ih fun u hu => h u (List.mem_cons_of_mem _ hu)

theorem scrape_school_allFail {ε : Type}
    {parsePage : String → Except ε (List Candidate)}
    {fetchO : String → EconPhDScraper.FetchResult} {selO : String → Option String}
    {urls : List String}
    (h : ∀ u ∈ urls, fetchO u = .netError ∧ selO u = Option.none) :
    EconPhDScraper.scrape_school parsePage fetchO selO urls = .ok [] := by
  unfold EconPhDScraper.scrape_school
  rw [fetchLoop_allFail fun u hu => (h u hu).1]
  dsimp only
  rw [selLoop_allFail fun u hu => (h u hu).2]
  dsimp only
  cases urls with
  | nil => rfl
  | cons u us =>
    rw [if_neg (by simp)]
    rfl

theorem scrapeAllLoop_allFail_cons {ε : Type}
    {parsePage : String → String → Except ε (List Candidate)}
    {fetchO : String → EconPhDScraper.FetchResult} {selO : String → Option String}
    {name : String} {urls : List String} {rest : List (String × List String)}
    (h : ∀ u ∈ urls, fetchO u = .netError ∧ selO u = Option.none) :
    EconPhDScraper.scrapeAllLoop parsePage fetchO selO ((name, urls) :: rest) =
      EconPhDScraper.scrapeAllLoop parsePage fetchO selO rest := by
  have step : EconPhDScraper.scrapeAllLoop parsePage fetchO selO
      ((name, urls) :: rest) =
      (match EconPhDScraper.scrape_school (parsePage name) fetchO selO urls with
       | .error e => .error e
       | .ok cs =>
         match EconPhDScraper.scrapeAllLoop parsePage fetchO selO rest with
         | .error e => .error e
         | .ok css => .ok (cs ++ css)) := rfl
  rw [step, @scrape_school_allFail ε (parsePage name) fetchO selO urls h]
  cases hrest : EconPhDScraper.scrapeAllLoop parsePage fetchO selO rest with
  | error e => rfl
  | ok css =>
    show Except.ok ([] ++ css) = Except.ok css
    rw [List.nil_append]

/-- C1 counterexample.  With two configured sources where the first
one's parser raises, `scrape_all` does NOT return the candidates of the
second source: the parser exception propagates (there is no
`try`/`except` around `scrape_school` in `scrape_all`) and the whole
run aborts with that error — although the second source alone would
have produced a candidate. -/
theorem C1_counterexample :
    EconPhDScraper.scrape_all c1Parse c1Fetch c1Sel c1Schools =
      .error "parser exception" ∧
    EconPhDScraper.scrape_all c1Parse c1Fetch c1Sel [("B", ["u2"])] =
      .ok [⟨"Jane Doe", "B", 2024, "", "Google", "", "", "", ""⟩] := by
  exact ⟨rfl, rfl⟩

/-- C1 (corrected).  Partial-failure isolation holds for FETCH failures
but not for parser exceptions: (i) when the parser never raises,
`scrape_all` always returns a result, whatever the fetch and Selenium
oracles do — fetch failures are caught and routed to Selenium, whose
failures are also caught; (ii) a source all of whose URLs fail both
fetch paths contributes nothing and the run returns exactly the other
sources' result.  A parser exception, by contrast, propagates out of
`scrape_all` (see the counterexample). -/
theorem C1_fetch_failure_isolation :
    (∀ {ε : Type} (parsePage : String → String → Except ε (List Candidate))
        (fetchO : String → EconPhDScraper.FetchResult)
        (selO : String → Option String)
        (schools : List (String × List String)),
        (∀ school html, ∃ r, parsePage school html = .ok r) →
        ∃ l, EconPhDScraper.scrape_all parsePage fetchO selO schools = .ok l) ∧
    (∀ {ε : Type} (parsePage : String → String → Except ε (List Candidate))
        (fetchO : String → EconPhDScraper.FetchResult)
        (selO : String → Option String)
        (name : String) (urls : List String)
        (rest : List (String × List String)),
        (∀ u ∈ urls, fetchO u = .netError ∧ selO u = Option.none) →
        EconPhDScraper.scrape_all parsePage fetchO selO ((name, urls) :: rest) =
          EconPhDScraper.scrape_all parsePage fetchO selO rest) := by
  constructor
  · intro ε parsePage fetchO selO schools hp
    obtain ⟨l, hl⟩ := @scrapeAllLoop_total ε parsePage fetchO selO hp schools
    exact ⟨_, by unfold EconPhDScraper.scrape_all; rw [hl]; rfl⟩
  · intro ε parsePage fetchO selO name urls rest h
    unfold EconPhDScraper.scrape_all
    rw [scrapeAllLoop_allFail_cons h]

/-- C1 witness: a concrete total parser with every fetch failing — the
run still returns, and the all-failing source "A" drops out exactly. -/
theorem C1_fetch_failure_isolation_witness :
    (∃ l, EconPhDScraper.scrape_all
        (fun school _ =>
          Except.ok (ε := String)
            [⟨"Jane Doe", school, 2024, "", "Google", "", "", "", ""⟩])
        c1FetchAllFail c1Sel c1Schools = .ok l) ∧
    EconPhDScraper.scrape_all c1Parse c1FetchAllFail c1Sel
        (("A", ["u1"]) :: [("B", [])]) =
      EconPhDScraper.scrape_all c1Parse c1FetchAllFail c1Sel [("B", [])] :=
  ⟨C1_fetch_failure_isolation.1 _ _ _ _ (fun _ _ => ⟨_, rfl⟩),
   C1_fetch_failure_isolation.2 _ _ _ _ _ _
     (fun _ _ => ⟨rfl, rfl⟩)⟩

theorem is_tech_placement_spec {p : String}
    (h : EconPhDScraper.is_tech_placement p = true) :
    is_academia p = false ∧
    pyIn "@" p = false ∧
    pyIn "phone" (pyLower p) = false ∧
    pyIn "campus map" (pyLower p) = false ∧
    pyIn "connect with us" (pyLower p) = false ∧
    pyIn "econ[at]" (pyLower p) = false ∧
    ∃ company ∈ SCRAPER_TECH_COMPANIES, pyIn company (pyLower p) = true := by
  unfold EconPhDScraper.is_tech_placement at h
  split at h
  · cases h
  · split at h
    · cases h
    · split at h
      · cases h
      · split at h
        · cases h
        · rename_i hne hac hg1 hg2
          simp only [Bool.or_eq_true, not_or, Bool.not_eq_true] at hg1 hg2
          obtain ⟨⟨hg1a, hg1b⟩, hg1c⟩ := hg1
          obtain ⟨hg2a, hg2b⟩ := hg2
          refine ⟨Bool.not_eq_true _ |>.mp hac, hg1a, hg1b, hg1c,
            hg2a, hg2b, ?_⟩
          exact List.any_eq_true.mp h

theorem scrape_school_ok_tech {ε : Type}
    {parsePage : String → Except ε (List Candidate)}
    {fetchO : String → EconPhDScraper.FetchResult} {selO : String → Option String}
    {urls : List String} {cs : List Candidate}
    (h : EconPhDScraper.scrape_school parsePage fetchO selO urls = .ok cs) :
    ∀ c ∈ cs, EconPhDScraper.is_tech_placement c.initial_placement = true := by
  unfold EconPhDScraper.scrape_school at h
  split at h
  · cases h
  · split at h
    · cases h
    · split at h
      · split at h
        · cases h
        · injection h with h2
          subst h2
          intro c hc
          exact (List.mem_filter.mp hc).2
      · injection h with h2
        subst h2
        intro c hc
        exact (List.mem_filter.mp hc).2

theorem scrapeAllLoop_ok_tech {ε : Type}
    {parsePage : String → String → Except ε (List Candidate)}
    {fetchO : String → EconPhDScraper.FetchResult} {selO : String → Option String} :
    ∀ {schools : List (String × List String)} {l : List Candidate},
      EconPhDScraper.scrapeAllLoop parsePage fetchO selO schools = .ok l →
      ∀ c ∈ l, EconPhDScraper.is_tech_placement c.initial_placement = true := by
  intro schools
  induction schools with
  | nil =>
    intro l h c hc
    injection h with h2
    subst h2
    cases hc
  | cons sc rest ih =>
    intro l h c hc
    unfold EconPhDScraper.scrapeAllLoop at h
    split at h
    · cases h
    · rename_i cs hcs
      split at h
      · cases h
      · rename_i css hcss
        injection h with h2
        subst h2
        rcases List.mem_append.mp hc with h1 | h2
        · exact scrape_school_ok_tech hcs c h1
        · exact ih hcss c h2

/-- C3 (confirmed).  Output-set invariant: every candidate in a
successful `scrape_all` output has an `initial_placement` that (a) is
not classified as academia by the keyword predicate, (b) contains no
garbage/contact-info marker, and (c) contains at least one entry of the
static tech-company list as a substring; and `isAcademia` behaves as
claimed on `"Professor at MIT"` and `"Amazon"`. -/
theorem C3_output_tech_invariant :
    (∀ {ε : Type} (parsePage : String → String → Except ε (List Candidate))
        (fetchO : String → EconPhDScraper.FetchResult)
        (selO : String → Option String)
        (schools : List (String × List String)) (l : List Candidate),
        EconPhDScraper.scrape_all parsePage fetchO selO schools = .ok l →
        ∀ c ∈ l,
          is_academia c.initial_placement = false ∧
          pyIn "@" c.initial_placement = false ∧
          pyIn "phone" (pyLower c.initial_placement) = false ∧
          pyIn "campus map" (pyLower c.initial_placement) = false ∧
          pyIn "connect with us" (pyLower c.initial_placement) = false ∧
          pyIn "econ[at]" (pyLower c.initial_placement) = false ∧
          ∃ company ∈ SCRAPER_TECH_COMPANIES,
            pyIn company (pyLower c.initial_placement) = true) ∧
    is_academia "Professor at MIT" = true ∧
    is_academia "Amazon" = false := by
  refine ⟨?_, by decide, by decide⟩
  intro ε parsePage fetchO selO schools l h c hc
  unfold EconPhDScraper.scrape_all at h
  cases hloop : EconPhDScraper.scrapeAllLoop parsePage fetchO selO schools with
  | error e => rw [hloop] at h; cases h
  | ok L =>
    rw [hloop] at h
    injection h with h2
    subst h2
    have hmem : c ∈ L := dedupGo_subset hc
    exact is_tech_placement_spec (scrapeAllLoop_ok_tech hloop c hmem)

/-- C3 witness: a concrete successful run whose single output candidate
(placement `"Google"`) satisfies all three conjuncts of the invariant. -/
theorem C3_output_tech_invariant_witness :
    is_academia "Google" = false ∧
    pyIn "@" "Google" = false ∧
    pyIn "phone" (pyLower "Google") = false ∧
    pyIn "campus map" (pyLower "Google") = false ∧
    pyIn "connect with us" (pyLower "Google") = false ∧
    pyIn "econ[at]" (pyLower "Google") = false ∧
    ∃ company ∈ SCRAPER_TECH_COMPANIES, pyIn company (pyLower "Google") = true :=
  C3_output_tech_invariant.1 c1Parse (fun _ => .content "OK") c1Sel
    [("B", ["u2"])] [⟨"Jane Doe", "B", 2024, "", "Google", "", "", "", ""⟩]
    rfl _ (List.mem_singleton.mpr rfl)

/-- C8 witness: a concrete row with `current_role = "Senior Economist"`
is skipped unchanged by the non-forced pass and processed under force. -/
theorem C8_incremental_enrichment_witness :
    Enricher.processRow false false (fun _ => Except.error "down")
        sampleEnrichedRow = (sampleEnrichedRow, false) ∧
      (Enricher.processRow true false (fun _ => Except.error "down")
        sampleEnrichedRow).2 = true :=
  ⟨C8_incremental_enrichment.1 _ _ (by decide),
   C8_incremental_enrichment.2 _ _ _⟩

theorem scanYear_none_iff (test : Char → Char → Char → Char → Bool)
    (value : Char → Char → Char → Char → Nat) :
    ∀ l : List Char, scanYear test value l = Option.none ↔
      ∀ c1 c2 c3 c4, test c1 c2 c3 c4 = true → ¬ ([c1, c2, c3, c4] <:+: l)
  | [] => by
    simp only [scanYear, true_iff]
    intro c1 c2 c3 c4 _ hinf
    have := hinf.length_le
    simp at this
  | [a] => by
    simp only [scanYear, true_iff]
    intro c1 c2 c3 c4 _ hinf
    have := hinf.length_le
    simp at this
  | [a, b] => by
    simp only [scanYear, true_iff]
    intro c1 c2 c3 c4 _ hinf
    have := hinf.length_le
    simp at this
  | [a, b, c] => by
    simp only [scanYear, true_iff]
    intro c1 c2 c3 c4 _ hinf
    have := hinf.length_le
    simp at this
  | a :: b :: c :: d :: rest => by
    by_cases ht : test a b c d = true
    · constructor
      · intro h
        rw [scanYear, if_pos ht] at h
        cases h
      · intro hr
        exfalso
        exact hr a b c d ht ⟨[], rest, rfl⟩
    · have hstep : scanYear test value (a :: b :: c :: d :: rest) =
          scanYear test value (b :: c :: d :: rest) := by
        rw [scanYear, if_neg ht]
      rw [hstep, scanYear_none_iff test value (b :: c :: d :: rest)]
      constructor
      · intro h c1 c2 c3 c4 htest hinf
        rcases List.infix_cons_iff.mp hinf with hpre | hinf2
        · obtain ⟨t, ht2⟩ := hpre
          simp only [List.cons_append, List.nil_append, List.cons.injEq] at ht2
          obtain ⟨rfl, rfl, rfl, rfl, _⟩ := ht2
          exact ht htest
        · exact h c1 c2 c3 c4 htest hinf2
      · intro h c1 c2 c3 c4 htest hinf
        exact h c1 c2 c3 c4 htest (List.infix_cons_iff.mpr (Or.inr hinf))

theorem scanYear_some_spec (test : Char → Char → Char → Char → Bool)
    (value : Char → Char → Char → Char → Nat) :
    ∀ (l : List Char) (y : Nat), scanYear test value l = some y →
      ∃ pre c1 c2 c3 c4 suf, l = pre ++ [c1, c2, c3, c4] ++ suf ∧
        test c1 c2 c3 c4 = true ∧ value c1 c2 c3 c4 = y ∧
        ∀ (pre' : List Char) (d1 d2 d3 d4 : Char) (suf' : List Char),
          l = pre' ++ [d1, d2, d3, d4] ++ suf' → test d1 d2 d3 d4 = true →
          pre.length ≤ pre'.length
  | [], y => by intro h; simp [scanYear] at h
  | [a], y => by intro h; simp [scanYear] at h
  | [a, b], y => by intro h; simp [scanYear] at h
  | [a, b, c], y => by intro h; simp [scanYear] at h
  | a :: b :: c :: d :: rest, y => by
    intro h
    by_cases ht : test a b c d = true
    · rw [scanYear, if_pos ht] at h
      refine ⟨[], a, b, c, d, rest, rfl, ht, Option.some.inj h, ?_⟩
      intro pre' d1 d2 d3 d4 suf' _ _
      exact Nat.zero_le _
    · rw [scanYear, if_neg ht] at h
      obtain ⟨pre, c1, c2, c3, c4, suf, heq, htest, hval, hmin⟩ :=
        scanYear_some_spec test value (b :: c :: d :: rest) y h
      refine ⟨a :: pre, c1, c2, c3, c4, suf, by simp [heq],
        htest, hval, ?_⟩
      intro pre' d1 d2 d3 d4 suf' hl htest'
      cases pre' with
      | nil =>
        simp only [List.nil_append, List.cons_append, List.cons.injEq] at hl
        obtain ⟨rfl, rfl, rfl, rfl, _⟩ := hl
        exact absurd htest' ht
      | cons e pre0 =>
        simp only [List.cons_append, List.cons.injEq] at hl
        have := hmin pre0 d1 d2 d3 d4 suf' hl.2 htest'
        simp only [List.length_cons]
        omega

theorem digits_2000 : ∀ a < 10, ∀ b < 10,
    (toString (2000 + 10 * a + b)).data =
      ['2', '0', Char.ofNat (48 + a), Char.ofNat (48 + b)] := by decide

theorem test2025_to_year {c1 c2 c3 c4 : Char}
    (h : EconPhDScraper.test2025 c1 c2 c3 c4 = true) :
    ∃ y ∈ YEARS_2020_2025, [c1, c2, c3, c4] = (toString y).data ∧
      EconPhDScraper.value2025 c1 c2 c3 c4 = y := by
  simp only [EconPhDScraper.test2025, decide_eq_true_eq] at h
  obtain ⟨rfl, rfl, rfl, h4, h5⟩ := h
  have h48 : ('0' : Char).toNat = 48 := rfl
  have h53 : ('5' : Char).toNat = 53 := rfl
  have hb1 : 48 ≤ c4.toNat := by
    have := char_le_iff_toNat.mp h4
    omega
  have hb2 : c4.toNat ≤ 53 := by
    have := char_le_iff_toNat.mp h5
    omega
  refine ⟨2020 + (c4.toNat - 48), ?_, ?_, ?_⟩
  · simp only [YEARS_2020_2025, List.mem_cons, List.not_mem_nil, or_false]
    omega
  · have hd := digits_2000 2 (by omega) (c4.toNat - 48) (by omega)
    rw [show 2000 + 10 * 2 + (c4.toNat - 48) = 2020 + (c4.toNat - 48) by omega]
      at hd
    rw [hd, show 48 + (c4.toNat - 48) = c4.toNat by omega, Char.ofNat_toNat]
  · simp only [EconPhDScraper.value2025]
    omega

theorem test1525_to_year {c1 c2 c3 c4 : Char}
    (h : PDFPlacementParser.test1525 c1 c2 c3 c4 = true) :
    ∃ y ∈ YEARS_2015_2025, [c1, c2, c3, c4] = (toString y).data ∧
      PDFPlacementParser.value1525 c1 c2 c3 c4 = y := by
  simp only [PDFPlacementParser.test1525, decide_eq_true_eq] at h
  have h48 : ('0' : Char).toNat = 48 := rfl
  obtain ⟨rfl, rfl, hc⟩ := h
  rcases hc with ⟨rfl, h4, h5⟩ | ⟨rfl, h4, h5⟩
  · have h53 : ('5' : Char).toNat = 53 := rfl
    have h57 : ('9' : Char).toNat = 57 := rfl
    have hb1 : 53 ≤ c4.toNat := by
      have := char_le_iff_toNat.mp h4
      omega
    have hb2 : c4.toNat ≤ 57 := by
      have := char_le_iff_toNat.mp h5
      omega
    refine ⟨2010 + (c4.toNat - 48), ?_, ?_, ?_⟩
    · simp only [YEARS_2015_2025, List.mem_cons, List.not_mem_nil, or_false]
      omega
    · have hd := digits_2000 1 (by omega) (c4.toNat - 48) (by omega)
      rw [show 2000 + 10 * 1 + (c4.toNat - 48) = 2010 + (c4.toNat - 48) by omega]
        at hd
      rw [hd, show 48 + (c4.toNat - 48) = c4.toNat by omega, Char.ofNat_toNat]
    · simp only [PDFPlacementParser.value1525]
      have h49 : ('1' : Char).toNat = 49 := rfl
      omega
  · have h53 : ('5' : Char).toNat = 53 := rfl
    have hb1 : 48 ≤ c4.toNat := by
      have := char_le_iff_toNat.mp h4
      omega
    have hb2 : c4.toNat ≤ 53 := by
      have := char_le_iff_toNat.mp h5
      omega
    refine ⟨2020 + (c4.toNat - 48), ?_, ?_, ?_⟩
    · simp only [YEARS_2015_2025, List.mem_cons, List.not_mem_nil, or_false]
      omega
    · have hd := digits_2000 2 (by omega) (c4.toNat - 48) (by omega)
      rw [show 2000 + 10 * 2 + (c4.toNat - 48) = 2020 + (c4.toNat - 48) by omega]
        at hd
      rw [hd, show 48 + (c4.toNat - 48) = c4.toNat by omega, Char.ofNat_toNat]
    · simp only [PDFPlacementParser.value1525]
      have h50 : ('2' : Char).toNat = 50 := rfl
      omega

theorem year_quad_2025 : ∀ y ∈ YEARS_2020_2025,
    (toString y).data.length = 4 ∧
    (toString y).data =
      [(toString y).data.getD 0 ' ', (toString y).data.getD 1 ' ',
       (toString y).data.getD 2 ' ', (toString y).data.getD 3 ' '] ∧
    EconPhDScraper.test2025 ((toString y).data.getD 0 ' ')
      ((toString y).data.getD 1 ' ') ((toString y).data.getD 2 ' ')
      ((toString y).data.getD 3 ' ') = true := by decide

theorem year_quad_1525 : ∀ y ∈ YEARS_2015_2025,
    (toString y).data.length = 4 ∧
    (toString y).data =
      [(toString y).data.getD 0 ' ', (toString y).data.getD 1 ' ',
       (toString y).data.getD 2 ' ', (toString y).data.getD 3 ' '] ∧
    PDFPlacementParser.test1525 ((toString y).data.getD 0 ' ')
      ((toString y).data.getD 1 ' ') ((toString y).data.getD 2 ' ')
      ((toString y).data.getD 3 ' ') = true := by decide

theorem years2025_bounds : ∀ y ∈ YEARS_2020_2025, 2020 ≤ y ∧ y ≤ 2025 := by
  decide

theorem years1525_bounds : ∀ y ∈ YEARS_2015_2025, 2015 ≤ y ∧ y ≤ 2025 := by
  decide

theorem scan_none_iff_years {test : Char → Char → Char → Char → Bool}
    {value : Char → Char → Char → Char → Nat} {W : List Nat}
    (hty : ∀ c1 c2 c3 c4, test c1 c2 c3 c4 = true →
      ∃ y ∈ W, [c1, c2, c3, c4] = (toString y).data ∧ value c1 c2 c3 c4 = y)
    (hyq : ∀ y ∈ W, (toString y).data.length = 4 ∧
      (toString y).data =
        [(toString y).data.getD 0 ' ', (toString y).data.getD 1 ' ',
         (toString y).data.getD 2 ' ', (toString y).data.getD 3 ' '] ∧
      test ((toString y).data.getD 0 ' ') ((toString y).data.getD 1 ' ')
        ((toString y).data.getD 2 ' ') ((toString y).data.getD 3 ' ') = true)
    (l : List Char) :
    scanYear test value l = Option.none ↔
      ∀ y ∈ W, ¬ ((toString y).data <:+: l) := by
  rw [scanYear_none_iff]
  constructor
  · intro h y hy hinf
    obtain ⟨_, hdec, htest⟩ := hyq y hy
    rw [hdec] at hinf
    exact h _ _ _ _ htest hinf
  · intro h c1 c2 c3 c4 htest hinf
    obtain ⟨y, hy, hdig, _⟩ := hty c1 c2 c3 c4 htest
    refine h y hy ?_
    rw [← hdig]
    exact hinf

theorem scan_some_spec_years {test : Char → Char → Char → Char → Bool}
    {value : Char → Char → Char → Char → Nat} {W : List Nat}
    (hty : ∀ c1 c2 c3 c4, test c1 c2 c3 c4 = true →
      ∃ y ∈ W, [c1, c2, c3, c4] = (toString y).data ∧ value c1 c2 c3 c4 = y)
    (hyq : ∀ y ∈ W, (toString y).data.length = 4 ∧
      (toString y).data =
        [(toString y).data.getD 0 ' ', (toString y).data.getD 1 ' ',
         (toString y).data.getD 2 ' ', (toString y).data.getD 3 ' '] ∧
      test ((toString y).data.getD 0 ' ') ((toString y).data.getD 1 ' ')
        ((toString y).data.getD 2 ' ') ((toString y).data.getD 3 ' ') = true)
    {l : List Char} {y : Nat} (h : scanYear test value l = some y) :
    y ∈ W ∧
      ∃ pre suf, l = pre ++ (toString y).data ++ suf ∧
        ∀ (pre' : List Char) (y' : Nat) (suf' : List Char), y' ∈ W →
          l = pre' ++ (toString y').data ++ suf' →
          pre.length ≤ pre'.length := by
  obtain ⟨pre, c1, c2, c3, c4, suf, heq, htest, hval, hmin⟩ :=
    scanYear_some_spec test value l y h
  obtain ⟨y0, hy0, hdig, hval0⟩ := hty c1 c2 c3 c4 htest
  have hyy : y0 = y := hval0.symm.trans hval
  subst hyy
  refine ⟨hy0, pre, suf, by rw [heq, hdig], ?_⟩
  intro pre' y' suf' hy' hdecomp
  obtain ⟨_, hdec', htest'⟩ := hyq y' hy'
  rw [hdec'] at hdecomp
  exact hmin pre' _ _ _ _ suf' hdecomp htest'

/-- C7 (confirmed).  Year extraction, for all three implementations:
the scraper's and the base parser's `extract_year` (regex `20(2[0-5])`)
and the PDF parser's `_extract_year` (regex `20(1[5-9]|2[0-5])`).  Each
returns only years inside its bounded window (2020-2025 resp.
2015-2025) — never a value from a 4-digit number outside the window —
returns `None` exactly when no in-window year occurs as a substring,
and any returned year is the leftmost in-window occurrence. -/
theorem C7_extract_year_window :
    (∀ (s : String) (y : Nat), EconPhDScraper.extract_year s = some y →
        2020 ≤ y ∧ y ≤ 2025) ∧
    (∀ s : String, EconPhDScraper.extract_year s = Option.none ↔
        ∀ y ∈ YEARS_2020_2025, ¬ ((toString y).data <:+: s.data)) ∧
    (∀ (s : String) (y : Nat), EconPhDScraper.extract_year s = some y →
        ∃ pre suf, s.data = pre ++ (toString y).data ++ suf ∧
          ∀ (pre' : List Char) (y' : Nat) (suf' : List Char),
            y' ∈ YEARS_2020_2025 →
            s.data = pre' ++ (toString y').data ++ suf' →
            pre.length ≤ pre'.length) ∧
    (∀ s : String, SchoolParser.extract_year s = EconPhDScraper.extract_year s) ∧
    (∀ (s : String) (y : Nat), PDFPlacementParser.extract_year s = some y →
        2015 ≤ y ∧ y ≤ 2025) ∧
    (∀ s : String, PDFPlacementParser.extract_year s = Option.none ↔
        ∀ y ∈ YEARS_2015_2025, ¬ ((toString y).data <:+: s.data)) ∧
    (∀ (s : String) (y : Nat), PDFPlacementParser.extract_year s = some y →
        ∃ pre suf, s.data = pre ++ (toString y).data ++ suf ∧
          ∀ (pre' : List Char) (y' : Nat) (suf' : List Char),
            y' ∈ YEARS_2015_2025 →
            s.data = pre' ++ (toString y').data ++ suf' →
            pre.length ≤ pre'.length) := by
  refine ⟨?_, ?_, ?_, fun s => rfl, ?_, ?_, ?_⟩
  · intro s y h
    by_cases hs : s = ""
    · subst hs
      simp [EconPhDScraper.extract_year] at h
    · unfold EconPhDScraper.extract_year at h
      rw [if_neg hs] at h
      exact years2025_bounds y
        (scan_some_spec_years (fun _ _ _ _ ht => test2025_to_year ht) year_quad_2025 h).1
  · intro s
    by_cases hs : s = ""
    · subst hs
      constructor
      · intro _ y hy hinf
        have hlen := (year_quad_2025 y hy).1
        have hle := hinf.length_le
        have hnil : ("" : String).data = [] := rfl
        rw [hnil] at hle
        simp only [List.length_nil] at hle
        omega
      · intro _
        rfl
    · unfold EconPhDScraper.extract_year
      rw [if_neg hs]
      exact scan_none_iff_years (fun _ _ _ _ ht => test2025_to_year ht) year_quad_2025 s.data
  · intro s y h
    by_cases hs : s = ""
    · subst hs
      simp [EconPhDScraper.extract_year] at h
    · unfold EconPhDScraper.extract_year at h
      rw [if_neg hs] at h
      exact (scan_some_spec_years (fun _ _ _ _ ht => test2025_to_year ht) year_quad_2025 h).2
  · intro s y h
    by_cases hs : s = ""
    · subst hs
      simp [PDFPlacementParser.extract_year] at h
    · unfold PDFPlacementParser.extract_year at h
      rw [if_neg hs] at h
      exact years1525_bounds y
        (scan_some_spec_years (fun _ _ _ _ ht => test1525_to_year ht) year_quad_1525 h).1
  · intro s
    by_cases hs : s = ""
    · subst hs
      constructor
      · intro _ y hy hinf
        have hlen := (year_quad_1525 y hy).1
        have hle := hinf.length_le
        have hnil : ("" : String).data = [] := rfl
        rw [hnil] at hle
        simp only [List.length_nil] at hle
        omega
      · intro _
        rfl
    · unfold PDFPlacementParser.extract_year
      rw [if_neg hs]
      exact scan_none_iff_years (fun _ _ _ _ ht => test1525_to_year ht) year_quad_1525 s.data
  · intro s y h
    by_cases hs : s = ""
    · subst hs
      simp [PDFPlacementParser.extract_year] at h
    · unfold PDFPlacementParser.extract_year at h
      rw [if_neg hs] at h
      exact (scan_some_spec_years (fun _ _ _ _ ht => test1525_to_year ht) year_quad_1525 h).2

/-- C7 witness: concrete inputs — the scraper finds 2023 in
`"Class of 2023"` (inside the window) and the PDF parser finds 2016 in
`"tel 2016"`. -/
theorem C7_extract_year_window_witness :
    (2020 ≤ 2023 ∧ 2023 ≤ 2025) ∧ (2015 ≤ 2016 ∧ 2016 ≤ 2025) :=
  ⟨C7_extract_year_window.1 "Class of 2023" 2023 rfl,
   C7_extract_year_window.2.2.2.2.1 "tel 2016" 2016 rfl⟩

end EconGrads
